import Mathlib

/-!
# Verification of the stocks valuation engine

A shallow embedding of the valuation core of the repository:

* the DCF Calculator (`calculateDCFValuation` and its helper steps),
* the Sensitivity Matrix Generator (`generateSensitivityAnalysis`),
* the FCF Projector (`projectFCFWithGrowth`),
* the cache Refresh Policy (`shouldFetchFullData`).

JavaScript numbers are modelled as rationals (`ℚ`); `Math.round` is
Mathlib's `round` (both round half towards positive infinity); `Math.pow`
on the natural exponents used here is `(· ^ ·)`.  A thrown validation
error is modelled by `Except.error` with the error kind as data.
Timestamps (`Date.getTime()` values, milliseconds since the epoch) are
rationals as well.
-/

namespace Stocks

/-- The `DCFInputs` interface of the valuation module. -/
structure DCFInputs where
  fcfProjections : List ℚ
  discountRate : ℚ
  perpetualGrowthRate : ℚ
  sharesOutstanding : ℚ
  deriving Repr, DecidableEq

/-- The `DCFCalculation` interface of the valuation module. -/
structure DCFCalculation where
  discountedFcfs : List ℚ
  totalDiscountedFcf : ℚ
  perpetuityValue : ℚ
  discountedPerpetuityValue : ℚ
  totalEquityValue : ℚ
  intrinsicValuePerShare : ℚ
  deriving Repr, DecidableEq

/-- The three validation failure kinds of `calculateDCFValuation`
(`Must provide exactly 10 years of FCF projections`, `Discount rate must
be greater than perpetual growth rate`, `Shares outstanding must be
positive`). -/
inductive DCFError where
  | invalidProjectionCount
  | invalidRateRelationship
  | invalidShareCount
  deriving Repr, DecidableEq

/-- Step 2 of the model: `discountCashFlows`.  Each year's FCF is divided
by `(1 + r) ^ year` where `r` is the discount rate as a fraction and
`year` is the 1-based position. -/
def discountCashFlows (fcfProjections : List ℚ) (discountRate : ℚ) : List ℚ :=
  let r := discountRate / 100
  fcfProjections.mapIdx fun index fcf =>
    let year := index + 1
    let discountFactor := (1 + r) ^ year
    fcf / discountFactor

/-- Step 3 of the model: `calculatePerpetuityValue`.  Returns the pair
(perpetuityValue, discountedPerpetuityValue). -/
def calculatePerpetuityValue (fcf10 discountRate perpetualGrowthRate : ℚ) : ℚ × ℚ :=
  let r := discountRate / 100
  let g := perpetualGrowthRate / 100
  let perpetuityValue := fcf10 * (1 + g) / (r - g)
  let discountFactor := (1 + r) ^ 10
  let discountedPerpetuityValue := perpetuityValue / discountFactor
  (perpetuityValue, discountedPerpetuityValue)

/-- Step 4 of the model: `calculateTotalEquityValue`.  The `reduce`
accumulation of the source is a left fold starting at 0. -/
def calculateTotalEquityValue (discountedFcfs : List ℚ)
    (discountedPerpetuityValue : ℚ) : ℚ :=
  let sumDiscountedFcfs := discountedFcfs.foldl (· + ·) 0
  sumDiscountedFcfs + discountedPerpetuityValue

/-- Step 5 of the model: `calculatePerShareValue`. -/
def calculatePerShareValue (totalEquityValue sharesOutstanding : ℚ) : ℚ :=
  totalEquityValue / sharesOutstanding

/-- The complete DCF valuation, including the three validation checks in
source order.  A `throw` is an `Except.error` carrying the kind. -/
def calculateDCFValuation (inputs : DCFInputs) : Except DCFError DCFCalculation :=
  if inputs.fcfProjections.length ≠ 10 then
    .error .invalidProjectionCount
  else if inputs.discountRate ≤ inputs.perpetualGrowthRate then
    .error .invalidRateRelationship
  else if inputs.sharesOutstanding ≤ 0 then
    .error .invalidShareCount
  else
    let discountedFcfs := discountCashFlows inputs.fcfProjections inputs.discountRate
    let totalDiscountedFcf := discountedFcfs.foldl (· + ·) 0
    let fcf10 := inputs.fcfProjections.getD 9 0
    let pv := calculatePerpetuityValue fcf10 inputs.discountRate inputs.perpetualGrowthRate
    let totalEquityValue := calculateTotalEquityValue discountedFcfs pv.2
    let intrinsicValuePerShare := calculatePerShareValue totalEquityValue inputs.sharesOutstanding
    .ok { discountedFcfs := discountedFcfs
          totalDiscountedFcf := totalDiscountedFcf
          perpetuityValue := pv.1
          discountedPerpetuityValue := pv.2
          totalEquityValue := totalEquityValue
          intrinsicValuePerShare := intrinsicValuePerShare }

/-- The row/column label of the sensitivity matrix: the rate's textual
form suffixed with `%` (the template literal of the source). -/
def percentLabel (rate : ℚ) : String :=
  toString rate ++ "%"

/-- One cell of the sensitivity matrix: the `try`/`catch` around the
calculator call, recording the rounded intrinsic value per share on
success and `0` on any calculator failure. -/
def sensitivityCell (fcfProjections : List ℚ) (sharesOutstanding : ℚ)
    (discountRate growthRate : ℚ) : ℚ :=
  match calculateDCFValuation
      { fcfProjections := fcfProjections
        discountRate := discountRate
        perpetualGrowthRate := growthRate
        sharesOutstanding := sharesOutstanding } with
  | .ok result => (round (result.intrinsicValuePerShare * 100) : ℚ) / 100
  | .error _ => 0

/-- `generateSensitivityAnalysis`: the nested `Record`s of the source are
association lists in insertion order (outer loop over discount rates,
inner loop over growth rates). -/
def generateSensitivityAnalysis (fcfProjections : List ℚ) (sharesOutstanding : ℚ)
    (discountRates growthRates : List ℚ) : List (String × List (String × ℚ)) :=
  discountRates.map fun discountRate =>
    (percentLabel discountRate,
      growthRates.map fun growthRate =>
        (percentLabel growthRate,
          sensitivityCell fcfProjections sharesOutstanding discountRate growthRate))

/-- The loop body of `projectFCFWithGrowth`: the running (unrounded)
`currentFcf` is multiplied by the growth factor each period and the
rounded copy is appended. -/
def projectFCFGo (growthRate : ℚ) : ℚ → ℕ → List ℤ
  | _, 0 => []
  | currentFcf, years + 1 =>
    let next := currentFcf * (1 + growthRate / 100)
    round next :: projectFCFGo growthRate next years

/-- `projectFCFWithGrowth(baseFcf, growthRate, years = 10)`. -/
def projectFCFWithGrowth (baseFcf growthRate : ℚ) (years : ℕ := 10) : List ℤ :=
  projectFCFGo growthRate baseFcf years

/-- A company record as seen by the refresh policy: only the
`nextEarnings` and `lastFullFetch` fields are consulted, each possibly
null.  Timestamps are milliseconds since the epoch. -/
structure CompanyRecord where
  nextEarnings : Option ℚ
  lastFullFetch : Option ℚ
  deriving Repr, DecidableEq

/-- `shouldFetchFullData` from the company controller: the staleness
decision, given the (possibly null) record and the ambient current
time `now`. -/
def shouldFetchFullData (company : Option CompanyRecord) (now : ℚ) : Bool :=
  match company with
  | none => true
  | some c =>
    match c.nextEarnings with
    | none => true
    | some nextEarnings =>
      match c.lastFullFetch with
      | none => true
      | some lastFullFetch =>
        if nextEarnings ≤ now ∧ nextEarnings > lastFullFetch then
          true
        else
          let daysSinceLastFetch := (now - lastFullFetch) / (1000 * 60 * 60 * 24)
          if daysSinceLastFetch > 90 then true else false

/-- The `DCFCalculation` record exactly as the specification describes the
algorithm: discounted FCFs by year, their sum, the Gordon-growth terminal
value on the tenth projection, its discounted form, and the per-share
value. -/
def dcfSpecResult (inputs : DCFInputs) : DCFCalculation :=
  let r := inputs.discountRate / 100
  let gf := inputs.perpetualGrowthRate / 100
  let dfcfs := (List.range 10).map fun n =>
    inputs.fcfProjections.getD n 0 / (1 + r) ^ (n + 1)
  let pv := inputs.fcfProjections.getD 9 0 * (1 + gf) / (r - gf)
  let dpv := pv / (1 + r) ^ 10
  { discountedFcfs := dfcfs
    totalDiscountedFcf := dfcfs.sum
    perpetuityValue := pv
    discountedPerpetuityValue := dpv
    totalEquityValue := dfcfs.sum + dpv
    intrinsicValuePerShare := (dfcfs.sum + dpv) / inputs.sharesOutstanding }

lemma mapIdx_eq_range_map (f : ℕ → ℚ → ℚ) (l : List ℚ) :
    l.mapIdx f = (List.range l.length).map fun n => f n (l.getD n 0) := by
  apply List.ext_getElem
  · simp
  · intro i h1 h2
    have hi : i < l.length := by simpa using h1
    rw [List.getElem_map, List.getElem_range,
      show (l.mapIdx f)[i] = f i (l.get ⟨i, hi⟩) from List.get_mapIdx l f i hi h1,
      List.getD_eq_getElem _ _ hi]
    rfl

lemma discountCashFlows_eq (l : List ℚ) (R : ℚ) :
    discountCashFlows l R =
      (List.range l.length).map fun n => l.getD n 0 / (1 + R / 100) ^ (n + 1) := by
  simpa only [discountCashFlows] using
    mapIdx_eq_range_map (fun index fcf => fcf / (1 + R / 100) ^ (index + 1)) l

/-- On validated inputs, `calculateDCFValuation` succeeds and returns
exactly the record the specification's algorithm describes. -/
lemma calculateDCFValuation_ok (inputs : DCFInputs)
    (h1 : inputs.fcfProjections.length = 10)
    (h2 : inputs.perpetualGrowthRate < inputs.discountRate)
    (h3 : 0 < inputs.sharesOutstanding) :
    calculateDCFValuation inputs = Except.ok (dcfSpecResult inputs) := by
  rw [calculateDCFValuation, if_neg (by simp [h1]), if_neg (not_le.mpr h2),
    if_neg (not_le.mpr h3)]
  simp only [discountCashFlows_eq, h1, calculatePerpetuityValue,
    calculateTotalEquityValue, calculatePerShareValue, dcfSpecResult,
    ← List.sum_eq_foldl]

/-- The worked valuation example of the specification: ten FCF
projections growing 10% from 100 billion, a 10% discount rate, 3%
perpetual growth, and 15,728,700,000 shares outstanding. -/
def dcfWorkedInput : DCFInputs :=
  { fcfProjections := [100000000000, 110000000000, 121000000000, 133100000000,
      146410000000, 161051000000, 177156100000, 194871710000, 214358881000,
      235794769100]
    discountRate := 10
    perpetualGrowthRate := 3
    sharesOutstanding := 15728700000 }

/-- C1: on every `ValuationInputs` passing validation (exactly 10
projections, discount rate strictly above growth rate, positive share
count), `calculateDCFValuation` returns exactly the record the spec's
formulas describe: `discountedFcfs[n] = FCF[n] / (1+r)^n` for year
`n = 1..10`, `perpetuityValue = FCF[10]*(1+gf)/(r-gf)`, its discounted
form over `(1+r)^10`, the total of the ten discounted values, their sum
with the discounted perpetuity as total equity value, and that total
divided by shares outstanding as intrinsic value per share. -/
theorem calculateDCFValuation_formula (inputs : DCFInputs)
    (h1 : inputs.fcfProjections.length = 10)
    (h2 : inputs.perpetualGrowthRate < inputs.discountRate)
    (h3 : 0 < inputs.sharesOutstanding) :
    calculateDCFValuation inputs = Except.ok (dcfSpecResult inputs) :=
  calculateDCFValuation_ok inputs h1 h2 h3

/-- Witness for C1 at the specification's worked example. -/
theorem calculateDCFValuation_formula_witness :
    dcfWorkedInput.fcfProjections.length = 10
    ∧ dcfWorkedInput.perpetualGrowthRate < dcfWorkedInput.discountRate
    ∧ 0 < dcfWorkedInput.sharesOutstanding
    ∧ calculateDCFValuation dcfWorkedInput = Except.ok (dcfSpecResult dcfWorkedInput) :=
  ⟨by decide, by decide, by decide,
    calculateDCFValuation_formula dcfWorkedInput (by decide) (by decide) (by decide)⟩

/-- C4: the three validation checks run before any computation and in
source order — a projection count other than 10 fails with
`invalidProjectionCount`; with 10 projections, a discount rate not
exceeding the growth rate fails with `invalidRateRelationship`; with 10
projections and a proper rate relationship, a non-positive share count
fails with `invalidShareCount`.  No partial result accompanies a
failure. -/
theorem calculateDCFValuation_validation_order (inputs : DCFInputs) :
    (inputs.fcfProjections.length ≠ 10 →
      calculateDCFValuation inputs = Except.error DCFError.invalidProjectionCount)
    ∧ (inputs.fcfProjections.length = 10 →
        inputs.discountRate ≤ inputs.perpetualGrowthRate →
        calculateDCFValuation inputs = Except.error DCFError.invalidRateRelationship)
    ∧ (inputs.fcfProjections.length = 10 →
        inputs.perpetualGrowthRate < inputs.discountRate →
        inputs.sharesOutstanding ≤ 0 →
        calculateDCFValuation inputs = Except.error DCFError.invalidShareCount) := by
  refine ⟨fun h => ?_, fun h1 hr => ?_, fun h1 hr hs => ?_⟩
  · rw [calculateDCFValuation, if_pos h]
  · rw [calculateDCFValuation, if_neg (by simp [h1]), if_pos hr]
  · rw [calculateDCFValuation, if_neg (by simp [h1]), if_neg (not_le.mpr hr),
      if_pos hs]

/-- Witness for C4: one concrete input per validation failure kind. -/
theorem calculateDCFValuation_validation_order_witness :
    (([] : List ℚ).length ≠ 10
      ∧ calculateDCFValuation ⟨[], 10, 3, 1⟩ =
          Except.error DCFError.invalidProjectionCount)
    ∧ ((List.replicate 10 (1 : ℚ)).length = 10 ∧ (5 : ℚ) ≤ 8
      ∧ calculateDCFValuation ⟨List.replicate 10 1, 5, 8, 1⟩ =
          Except.error DCFError.invalidRateRelationship)
    ∧ ((List.replicate 10 (1 : ℚ)).length = 10 ∧ (3 : ℚ) < 10 ∧ (0 : ℚ) ≤ 0
      ∧ calculateDCFValuation ⟨List.replicate 10 1, 10, 3, 0⟩ =
          Except.error DCFError.invalidShareCount) :=
  ⟨⟨by decide,
      (calculateDCFValuation_validation_order ⟨[], 10, 3, 1⟩).1 (by decide)⟩,
    ⟨by decide, by decide,
      (calculateDCFValuation_validation_order ⟨List.replicate 10 1, 5, 8, 1⟩).2.1
        (by decide) (by decide)⟩,
    ⟨by decide, by decide, by decide,
      (calculateDCFValuation_validation_order ⟨List.replicate 10 1, 10, 3, 0⟩).2.2
        (by decide) (by decide) (by decide)⟩⟩

/-- Every divisor evaluated by `calculateDCFValuation` once validation
has passed: the two percentage conversions (both by 100), the ten
per-year discount factors `(1+r)^n`, the Gordon denominator `r - g`, the
terminal discount factor `(1+r)^10`, and the share count. -/
def dcfDivisors (inputs : DCFInputs) : List ℚ :=
  [100, 100]
    ++ ((List.range 10).map fun n => (1 + inputs.discountRate / 100) ^ (n + 1))
    ++ [inputs.discountRate / 100 - inputs.perpetualGrowthRate / 100,
        (1 + inputs.discountRate / 100) ^ 10,
        inputs.sharesOutstanding]

/-- A -100% discount rate: passes all three validation checks, yet every
discount factor is `(1 + (-1))^n = 0`. -/
def dcfDivZeroInput : DCFInputs :=
  { fcfProjections := List.replicate 10 1
    discountRate := -100
    perpetualGrowthRate := -200
    sharesOutstanding := 1 }

/-- Counterexample to C6: `dcfDivZeroInput` satisfies the validation
precondition (10 projections, discount rate strictly above growth rate,
positive shares), yet one of the divisors `calculateDCFValuation`
evaluates on it is zero — the per-year discount factor `(1+r)^n`
vanishes at a -100% discount rate. -/
theorem dcf_division_by_zero_counterexample :
    (dcfDivZeroInput.fcfProjections.length = 10
      ∧ dcfDivZeroInput.perpetualGrowthRate < dcfDivZeroInput.discountRate
      ∧ 0 < dcfDivZeroInput.sharesOutstanding)
    ∧ ¬ (∀ d ∈ dcfDivisors dcfDivZeroInput, d ≠ 0) := by
  refine ⟨⟨by decide, by decide, by decide⟩, fun h => ?_⟩
  have hmem : (0 : ℚ) ∈ dcfDivisors dcfDivZeroInput := by
    simp only [dcfDivisors, dcfDivZeroInput, List.mem_append, List.mem_map,
      List.mem_range]
    exact Or.inl (Or.inr ⟨0, by norm_num, by norm_num⟩)
  exact h 0 hmem rfl

/-- C6 amended: on inputs passing validation whose discount rate is
moreover not exactly -100, every divisor `calculateDCFValuation`
evaluates is nonzero, so no division by zero occurs. -/
theorem dcf_no_division_by_zero (inputs : DCFInputs)
    (h2 : inputs.perpetualGrowthRate < inputs.discountRate)
    (h3 : 0 < inputs.sharesOutstanding)
    (h4 : inputs.discountRate ≠ -100) :
    ∀ d ∈ dcfDivisors inputs, d ≠ 0 := by
  have hbase : (1 : ℚ) + inputs.discountRate / 100 ≠ 0 := by
    intro h
    exact h4 (by linarith)
  intro d hd
  simp only [dcfDivisors, List.mem_append, List.mem_cons, List.mem_map,
    List.mem_range, List.not_mem_nil, or_false] at hd
  obtain ((rfl | rfl) | ⟨n, -, rfl⟩) | (rfl | rfl | rfl) := hd
  · norm_num
  · norm_num
  · exact pow_ne_zero _ hbase
  · exact sub_ne_zero_of_ne
      (ne_of_gt (by linarith : inputs.perpetualGrowthRate / 100 <
        inputs.discountRate / 100))
  · exact pow_ne_zero _ hbase
  · exact ne_of_gt h3

/-- Witness for C6 (amended) at a standard 10%/3% input. -/
theorem dcf_no_division_by_zero_witness :
    ((3 : ℚ) < 10 ∧ (0 : ℚ) < 5 ∧ (10 : ℚ) ≠ -100)
    ∧ ∀ d ∈ dcfDivisors ⟨List.replicate 10 1, 10, 3, 5⟩, d ≠ 0 :=
  ⟨⟨by decide, by decide, by decide⟩,
    dcf_no_division_by_zero ⟨List.replicate 10 1, 10, 3, 5⟩
      (by decide) (by decide) (by decide)⟩

lemma getD_mem (l : List ℚ) (n : ℕ) (h : n < l.length) (d : ℚ) :
    l.getD n d ∈ l := by
  rw [List.getD_eq_getElem _ _ h]
  exact List.getElem_mem _

lemma getD_replicate_zero (n : ℕ) :
    (List.replicate 10 (0 : ℚ)).getD n 0 = 0 := by
  rcases lt_or_ge n 10 with h | h
  · rw [List.getD_eq_getElem _ _ (by simpa using h), List.getElem_replicate]
  · rw [List.getD_eq_default _ _ (by simpa using h)]

lemma sum_neg_of_forall_neg (l : List ℚ) (h : l ≠ []) (h2 : ∀ x ∈ l, x < 0) :
    l.sum < 0 := by
  induction l with
  | nil => simp at h
  | cons a t ih =>
    rcases eq_or_ne t [] with rfl | ht
    · simpa using h2 a (by simp)
    · have hs := ih ht fun x hx => h2 x (by simp [hx])
      have ha := h2 a (by simp)
      simp only [List.sum_cons]
      linarith

lemma dcfSpecResult_intrinsic_neg (inputs : DCFInputs)
    (h1 : inputs.fcfProjections.length = 10)
    (h2 : inputs.perpetualGrowthRate < inputs.discountRate)
    (h3 : 0 < inputs.sharesOutstanding)
    (hg : -100 < inputs.perpetualGrowthRate)
    (hneg : ∀ x ∈ inputs.fcfProjections, x < 0) :
    (dcfSpecResult inputs).intrinsicValuePerShare < 0 := by
  have hr1 : (0 : ℚ) < 1 + inputs.discountRate / 100 := by linarith
  have hgf : (0 : ℚ) < 1 + inputs.perpetualGrowthRate / 100 := by linarith
  have hsub : (0 : ℚ) <
      inputs.discountRate / 100 - inputs.perpetualGrowthRate / 100 := by linarith
  simp only [dcfSpecResult]
  apply div_neg_of_neg_of_pos _ h3
  have hsum : ((List.range 10).map fun n =>
      inputs.fcfProjections.getD n 0 /
        (1 + inputs.discountRate / 100) ^ (n + 1)).sum < 0 := by
    apply sum_neg_of_forall_neg _ (by simp)
    intro x hx
    obtain ⟨n, hn, rfl⟩ := List.mem_map.mp hx
    have hnlt : n < inputs.fcfProjections.length := by
      rw [h1]; exact List.mem_range.mp hn
    exact div_neg_of_neg_of_pos
      (hneg _ (getD_mem _ _ hnlt _)) (pow_pos hr1 _)
  have hfcf10 : inputs.fcfProjections.getD 9 0 < 0 :=
    hneg _ (getD_mem _ _ (by omega) _)
  have hpv : inputs.fcfProjections.getD 9 0 *
      (1 + inputs.perpetualGrowthRate / 100) /
      (inputs.discountRate / 100 - inputs.perpetualGrowthRate / 100) < 0 :=
    div_neg_of_neg_of_pos (mul_neg_of_neg_of_pos hfcf10 hgf) hsub
  have hdpv := div_neg_of_neg_of_pos hpv
    (pow_pos hr1 10)
  linarith

/-- C7 amended: the DCF calculator is sign-preserving — all-zero
projections give an all-zero result record for any validated rates, and
all-negative projections give a negative intrinsic value per share
provided the growth rate (and hence the discount rate) exceeds -100%. -/
theorem dcf_sign_preserving :
    (∀ R g s : ℚ, g < R → 0 < s →
      calculateDCFValuation ⟨List.replicate 10 0, R, g, s⟩ =
        Except.ok ⟨List.replicate 10 0, 0, 0, 0, 0, 0⟩)
    ∧ (∀ (inputs : DCFInputs) (c : DCFCalculation),
        inputs.fcfProjections.length = 10 →
        inputs.perpetualGrowthRate < inputs.discountRate →
        0 < inputs.sharesOutstanding →
        -100 < inputs.perpetualGrowthRate →
        (∀ x ∈ inputs.fcfProjections, x < 0) →
        calculateDCFValuation inputs = Except.ok c →
        c.intrinsicValuePerShare < 0) := by
  constructor
  · intro R g s hgR hs
    rw [calculateDCFValuation_ok _ (by simp) hgR hs]
    congr 1
    simp only [dcfSpecResult, getD_replicate_zero, zero_div, zero_mul]
    simp
  · intro inputs c h1 h2 h3 hg hneg hok
    rw [calculateDCFValuation_ok inputs h1 h2 h3] at hok
    obtain rfl := Except.ok.inj hok
    exact dcfSpecResult_intrinsic_neg inputs h1 h2 h3 hg hneg

/-- All-negative projections with a discount rate below -100%: the
discount factors alternate in sign. -/
def dcfAllNegInput : DCFInputs :=
  { fcfProjections := List.replicate 10 (-1)
    discountRate := -150
    perpetualGrowthRate := -200
    sharesOutstanding := 1 }

/-- Counterexample to C7 as stated: `dcfAllNegInput` passes validation
and has all-negative projections, yet the intrinsic value per share is
1366, which is positive. -/
theorem dcf_sign_preserving_counterexample :
    (dcfAllNegInput.fcfProjections.length = 10
      ∧ dcfAllNegInput.perpetualGrowthRate < dcfAllNegInput.discountRate
      ∧ 0 < dcfAllNegInput.sharesOutstanding
      ∧ ∀ x ∈ dcfAllNegInput.fcfProjections, x < 0)
    ∧ ¬ (∀ c, calculateDCFValuation dcfAllNegInput = Except.ok c →
          c.intrinsicValuePerShare < 0) := by
  constructor
  · refine ⟨by decide, by decide, by decide, fun x hx => ?_⟩
    rw [List.eq_of_mem_replicate hx]
    norm_num
  · intro h
    have hok : calculateDCFValuation dcfAllNegInput =
        Except.ok (dcfSpecResult dcfAllNegInput) :=
      calculateDCFValuation_ok _ (by decide) (by decide) (by decide)
    have hlt := h _ hok
    have hval : (dcfSpecResult dcfAllNegInput).intrinsicValuePerShare = 1366 := by
      norm_num [dcfSpecResult, dcfAllNegInput, List.range_succ, List.replicate]
    rw [hval] at hlt
    norm_num at hlt

/-- All-negative projections at a 100% discount rate and zero growth:
every quantity in the result is a power of two, all negative. -/
def dcfAllNegValidInput : DCFInputs :=
  { fcfProjections := List.replicate 10 (-1024)
    discountRate := 100
    perpetualGrowthRate := 0
    sharesOutstanding := 1 }

/-- The result record of `calculateDCFValuation` on
`dcfAllNegValidInput`. -/
def dcfAllNegValidResult : DCFCalculation :=
  { discountedFcfs := [-512, -256, -128, -64, -32, -16, -8, -4, -2, -1]
    totalDiscountedFcf := -1023
    perpetuityValue := -1024
    discountedPerpetuityValue := -1
    totalEquityValue := -1024
    intrinsicValuePerShare := -1024 }

/-- Witness for C7 (amended): the all-zero part at rates 10%/3% and the
all-negative part at `dcfAllNegValidInput`. -/
theorem dcf_sign_preserving_witness :
    ((3 : ℚ) < 10 ∧ (0 : ℚ) < 1
      ∧ calculateDCFValuation ⟨List.replicate 10 0, 10, 3, 1⟩ =
          Except.ok ⟨List.replicate 10 0, 0, 0, 0, 0, 0⟩)
    ∧ (dcfAllNegValidInput.fcfProjections.length = 10
      ∧ dcfAllNegValidInput.perpetualGrowthRate < dcfAllNegValidInput.discountRate
      ∧ 0 < dcfAllNegValidInput.sharesOutstanding
      ∧ -100 < dcfAllNegValidInput.perpetualGrowthRate
      ∧ (∀ x ∈ dcfAllNegValidInput.fcfProjections, x < 0)
      ∧ calculateDCFValuation dcfAllNegValidInput = Except.ok dcfAllNegValidResult
      ∧ dcfAllNegValidResult.intrinsicValuePerShare < 0) := by
  have hneg : ∀ x ∈ dcfAllNegValidInput.fcfProjections, x < 0 := by
    intro x hx
    rw [List.eq_of_mem_replicate hx]
    norm_num
  have hok : calculateDCFValuation dcfAllNegValidInput =
      Except.ok dcfAllNegValidResult := by
    rw [calculateDCFValuation_ok _ (by decide) (by decide) (by decide)]
    congr 1
    norm_num [dcfSpecResult, dcfAllNegValidInput, dcfAllNegValidResult,
      List.range_succ, List.replicate]
  exact ⟨⟨by decide, by decide, dcf_sign_preserving.1 10 3 1 (by decide) (by decide)⟩,
    by decide, by decide, by decide, by decide, hneg, hok,
    dcf_sign_preserving.2 dcfAllNegValidInput dcfAllNegValidResult
      (by decide) (by decide) (by decide) (by decide) hneg hok⟩

/-- C8: when all ten projected FCFs equal the same positive value and
the discount rate is positive, the discounted FCFs returned by
`calculateDCFValuation` strictly decrease with the year: later years are
discounted by a strictly larger factor. -/
theorem dcf_discounted_strict_anti (inputs : DCFInputs) (v : ℚ)
    (c : DCFCalculation)
    (h1 : inputs.fcfProjections.length = 10)
    (hall : ∀ x ∈ inputs.fcfProjections, x = v)
    (hv : 0 < v) (hR : 0 < inputs.discountRate)
    (h2 : inputs.perpetualGrowthRate < inputs.discountRate)
    (h3 : 0 < inputs.sharesOutstanding)
    (hok : calculateDCFValuation inputs = Except.ok c)
    (i j : ℕ) (hij : i < j) (hj : j < 10) :
    c.discountedFcfs.getD j 0 < c.discountedFcfs.getD i 0 := by
  rw [calculateDCFValuation_ok _ h1 h2 h3] at hok
  obtain rfl := Except.ok.inj hok
  have hval : ∀ n, n < 10 →
      (dcfSpecResult inputs).discountedFcfs.getD n 0 =
        v / (1 + inputs.discountRate / 100) ^ (n + 1) := by
    intro n hn
    simp only [dcfSpecResult]
    rw [List.getD_eq_getElem _ _ (by simp [hn]), List.getElem_map,
      List.getElem_range]
    congr 1
    exact hall _ (getD_mem _ _ (by rw [h1]; exact hn) _)
  rw [hval j hj, hval i (by omega)]
  exact div_lt_div_of_pos_left hv (pow_pos (by linarith) _)
    (pow_lt_pow_right₀ (by linarith) (by omega))

/-- Ten equal positive projections at a 100% discount rate. -/
def dcfMonoInput : DCFInputs :=
  { fcfProjections := List.replicate 10 1
    discountRate := 100
    perpetualGrowthRate := 0
    sharesOutstanding := 1 }

/-- The result record of `calculateDCFValuation` on `dcfMonoInput`. -/
def dcfMonoResult : DCFCalculation :=
  { discountedFcfs := [1/2, 1/4, 1/8, 1/16, 1/32, 1/64, 1/128, 1/256,
      1/512, 1/1024]
    totalDiscountedFcf := 1023/1024
    perpetuityValue := 1
    discountedPerpetuityValue := 1/1024
    totalEquityValue := 1
    intrinsicValuePerShare := 1 }

/-- Witness for C8 at `dcfMonoInput`, years 1 and 2. -/
theorem dcf_discounted_strict_anti_witness :
    (dcfMonoInput.fcfProjections.length = 10
      ∧ (∀ x ∈ dcfMonoInput.fcfProjections, x = 1)
      ∧ (0 : ℚ) < 1 ∧ 0 < dcfMonoInput.discountRate
      ∧ dcfMonoInput.perpetualGrowthRate < dcfMonoInput.discountRate
      ∧ 0 < dcfMonoInput.sharesOutstanding
      ∧ calculateDCFValuation dcfMonoInput = Except.ok dcfMonoResult
      ∧ (0 : ℕ) < 1 ∧ (1 : ℕ) < 10)
    ∧ dcfMonoResult.discountedFcfs.getD 1 0 <
        dcfMonoResult.discountedFcfs.getD 0 0 := by
  have hall : ∀ x ∈ dcfMonoInput.fcfProjections, x = 1 := by
    intro x hx
    exact List.eq_of_mem_replicate hx
  have hok : calculateDCFValuation dcfMonoInput = Except.ok dcfMonoResult := by
    rw [calculateDCFValuation_ok _ (by decide) (by decide) (by decide)]
    congr 1
    norm_num [dcfSpecResult, dcfMonoInput, dcfMonoResult, List.range_succ,
      List.replicate]
  exact ⟨⟨by decide, hall, by decide, by decide, by decide, by decide, hok,
      by decide, by decide⟩,
    dcf_discounted_strict_anti dcfMonoInput 1 dcfMonoResult (by decide) hall
      (by decide) (by decide) (by decide) (by decide) hok 0 1
      (by decide) (by decide)⟩

lemma projectFCFGo_length (g : ℚ) : ∀ (x : ℚ) (n : ℕ),
    (projectFCFGo g x n).length = n := by
  intro x n
  induction n generalizing x with
  | zero => rfl
  | succ n ih => simp [projectFCFGo, ih]

lemma projectFCFGo_getD (g : ℚ) : ∀ (n : ℕ) (x : ℚ) (i : ℕ), i < n →
    (projectFCFGo g x n).getD i 0 = round (x * (1 + g / 100) ^ (i + 1)) := by
  intro n
  induction n with
  | zero => omega
  | succ n ih =>
    intro x i h
    cases i with
    | zero => simp [projectFCFGo]
    | succ i =>
      simp only [projectFCFGo, List.getD_cons_succ]
      rw [ih (x * (1 + g / 100)) i (by omega)]
      congr 1
      ring

/-- Counterexample to C5: on base 10, growth 15%, horizon 2 the code
returns `[12, 13]`, but the claimed recurrence — the rounded value seeds
the next period — would give `out[1] = round(12 * 1.15) = 14`, not 13:
the unrounded running value is what compounds. -/
theorem projectFCFWithGrowth_rounded_seed_counterexample :
    projectFCFWithGrowth 10 15 2 = [12, 13]
    ∧ (projectFCFWithGrowth 10 15 2).getD 0 0 = round ((10 : ℚ) * (1 + 15 / 100))
    ∧ (projectFCFWithGrowth 10 15 2).getD 1 0 ≠
        round ((((projectFCFWithGrowth 10 15 2).getD 0 0 : ℤ) : ℚ) * (1 + 15 / 100)) := by
  have h : projectFCFWithGrowth 10 15 2 = [12, 13] := by
    norm_num [projectFCFWithGrowth, projectFCFGo, round_eq]
  refine ⟨h, ?_, ?_⟩
  · rw [h]
    norm_num [round_eq]
  · rw [h]
    norm_num [round_eq]

/-- C5 amended: `projectFCFWithGrowth` returns `years` values where
`out[i] = round(baseFCF * (1 + g/100)^(i+1))` — the first element is the
base grown one period, each element is rounded on output, but the
*unrounded* running value (not the rounded one) seeds the next period's
compounding; the default horizon is 10, and the worked example
`projectFCF(100e9, 10, 5)` is exact. -/
theorem projectFCFWithGrowth_spec (baseFcf growthRate : ℚ) (years : ℕ) :
    (projectFCFWithGrowth baseFcf growthRate years).length = years
    ∧ (∀ i, i < years →
        (projectFCFWithGrowth baseFcf growthRate years).getD i 0 =
          round (baseFcf * (1 + growthRate / 100) ^ (i + 1)))
    ∧ projectFCFWithGrowth baseFcf growthRate =
        projectFCFWithGrowth baseFcf growthRate 10
    ∧ projectFCFWithGrowth 100000000000 10 5 =
        [110000000000, 121000000000, 133100000000, 146410000000, 161051000000] := by
  refine ⟨projectFCFGo_length _ _ _,
    fun i h => projectFCFGo_getD _ years baseFcf i h, rfl, ?_⟩
  norm_num [projectFCFWithGrowth, projectFCFGo, round_eq]

/-- Witness for C5 (amended) at the worked example, final element. -/
theorem projectFCFWithGrowth_spec_witness :
    (4 : ℕ) < 5
    ∧ (projectFCFWithGrowth 100000000000 10 5).getD 4 0 =
        round ((100000000000 : ℚ) * (1 + 10 / 100) ^ (4 + 1)) :=
  ⟨by decide, (projectFCFWithGrowth_spec 100000000000 10 5).2.1 4 (by decide)⟩

/-- C9: with zero growth the projection is flat — every element of
`projectFCFWithGrowth(x, 0, n)` equals the (whole-currency-unit) base
value `x`, for every horizon `n`. -/
theorem projectFCFWithGrowth_zero_growth (x : ℤ) (n : ℕ) :
    projectFCFWithGrowth (x : ℚ) 0 n = List.replicate n x := by
  show projectFCFGo 0 (x : ℚ) n = _
  induction n with
  | zero => rfl
  | succ n ih =>
    simp only [projectFCFGo, List.replicate]
    norm_num [round_intCast]
    exact ih

/-- C2: the refresh policy's rules, evaluated in order with first match
winning — a missing record, missing next-earnings date, or missing
last-full-fetch timestamp each force a full fetch; with all three
present, a full fetch happens exactly when an earnings event has
occurred since the last refresh (`nextEarnings ≤ now` and
`lastFullFetch < nextEarnings`) or strictly more than 90 fractional days
separate the last full fetch from now; in particular a fetch exactly 91
days old with future earnings yields `true` and one exactly 30 days old
with future earnings yields `false`. -/
theorem shouldFetchFullData_spec :
    (∀ now : ℚ, shouldFetchFullData none now = true)
    ∧ (∀ (now : ℚ) (lf : Option ℚ),
        shouldFetchFullData (some ⟨none, lf⟩) now = true)
    ∧ (∀ (now ne : ℚ),
        shouldFetchFullData (some ⟨some ne, none⟩) now = true)
    ∧ (∀ (now ne lf : ℚ),
        shouldFetchFullData (some ⟨some ne, some lf⟩) now = true ↔
          (ne ≤ now ∧ lf < ne) ∨ 90 < (now - lf) / (1000 * 60 * 60 * 24))
    ∧ (∀ (now ne : ℚ), now < ne →
        shouldFetchFullData
          (some ⟨some ne, some (now - 91 * (1000 * 60 * 60 * 24))⟩) now = true)
    ∧ (∀ (now ne : ℚ), now < ne →
        shouldFetchFullData
          (some ⟨some ne, some (now - 30 * (1000 * 60 * 60 * 24))⟩) now = false) := by
  have hiff : ∀ (now ne lf : ℚ),
      shouldFetchFullData (some ⟨some ne, some lf⟩) now = true ↔
        (ne ≤ now ∧ lf < ne) ∨ 90 < (now - lf) / (1000 * 60 * 60 * 24) := by
    intro now ne lf
    simp only [shouldFetchFullData]
    split_ifs with h1 h2
    · exact iff_of_true rfl (Or.inl ⟨h1.1, h1.2⟩)
    · exact iff_of_true rfl (Or.inr h2)
    · refine iff_of_false (by simp) ?_
      rintro (⟨ha, hb⟩ | hc)
      · exact h1 ⟨ha, hb⟩
      · exact h2 hc
  refine ⟨fun _ => rfl, fun _ _ => rfl, fun _ _ => rfl, hiff,
    fun now ne h => ?_, fun now ne h => ?_⟩
  · rw [hiff]
    refine Or.inr ?_
    have harith : now - (now - 91 * (1000 * 60 * 60 * 24)) =
        91 * (1000 * 60 * 60 * 24) := by ring
    rw [harith]
    norm_num
  · simp only [shouldFetchFullData]
    rw [if_neg fun hc => absurd hc.1 (not_le.mpr h), if_neg ?_]
    have harith : now - (now - 30 * (1000 * 60 * 60 * 24)) =
        30 * (1000 * 60 * 60 * 24) := by ring
    rw [harith]
    norm_num

/-- Witness for C2's conditional rules at `now = 0`, future earnings at
`1`, fetch timestamps exactly 91 and 30 days in the past. -/
theorem shouldFetchFullData_spec_witness :
    (0 : ℚ) < 1
    ∧ shouldFetchFullData
        (some ⟨some 1, some (0 - 91 * (1000 * 60 * 60 * 24))⟩) 0 = true
    ∧ shouldFetchFullData
        (some ⟨some 1, some (0 - 30 * (1000 * 60 * 60 * 24))⟩) 0 = false :=
  ⟨by decide, shouldFetchFullData_spec.2.2.2.2.1 0 1 (by decide),
    shouldFetchFullData_spec.2.2.2.2.2 0 1 (by decide)⟩

lemma getD_map_of_lt {β : Type} (l : List ℚ) (F : ℚ → β) (d : β) (j : ℕ)
    (hj : j < l.length) : (l.map F).getD j d = F (l.getD j 0) := by
  rw [List.getD_eq_getElem _ _ (by simpa using hj), List.getElem_map,
    List.getD_eq_getElem _ _ hj]

lemma generateSensitivityAnalysis_getD (f : List ℚ) (s : ℚ)
    (dRs gRs : List ℚ) (i : ℕ) (hi : i < dRs.length) :
    (generateSensitivityAnalysis f s dRs gRs).getD i ("", []) =
      (percentLabel (dRs.getD i 0),
        gRs.map fun gR =>
          (percentLabel gR, sensitivityCell f s (dRs.getD i 0) gR)) := by
  rw [generateSensitivityAnalysis, getD_map_of_lt _ _ _ _ hi]

/-- C3: the sensitivity matrix has one row per supplied discount rate and
one cell per supplied growth rate, in caller order, keyed by the rate's
textual form suffixed with `%`; each cell holds the intrinsic value per
share rounded to 2 decimals when the calculator succeeds for that rate
pair and exactly `0` when it fails, so the matrix is always fully
populated and a calculator failure never propagates. -/
theorem generateSensitivityAnalysis_spec (f : List ℚ) (s : ℚ)
    (dRs gRs : List ℚ) :
    (generateSensitivityAnalysis f s dRs gRs).length = dRs.length
    ∧ (∀ i, i < dRs.length →
        ((generateSensitivityAnalysis f s dRs gRs).getD i ("", [])).1 =
            percentLabel (dRs.getD i 0)
          ∧ ((generateSensitivityAnalysis f s dRs gRs).getD i ("", [])).2.length =
              gRs.length
          ∧ ∀ j, j < gRs.length →
              ((generateSensitivityAnalysis f s dRs gRs).getD i
                    ("", [])).2.getD j ("", 0) =
                (percentLabel (gRs.getD j 0),
                  sensitivityCell f s (dRs.getD i 0) (gRs.getD j 0)))
    ∧ (∀ dR gR : ℚ,
        (∀ c, calculateDCFValuation ⟨f, dR, gR, s⟩ = Except.ok c →
          sensitivityCell f s dR gR =
            (round (c.intrinsicValuePerShare * 100) : ℚ) / 100)
        ∧ (∀ e, calculateDCFValuation ⟨f, dR, gR, s⟩ = Except.error e →
          sensitivityCell f s dR gR = 0)) := by
  refine ⟨by simp [generateSensitivityAnalysis], fun i hi => ?_,
    fun dR gR => ⟨fun c hc => ?_, fun e he => ?_⟩⟩
  · rw [generateSensitivityAnalysis_getD f s dRs gRs i hi]
    exact ⟨rfl, by simp, fun j hj => getD_map_of_lt _ _ _ _ hj⟩
  · simp only [sensitivityCell, hc]
  · simp only [sensitivityCell, he]

/-- Ten equal projections of 1024 for the sensitivity witnesses. -/
def sensWitnessFcfs : List ℚ := List.replicate 10 1024

/-- The result record of `calculateDCFValuation` on `sensWitnessFcfs`
with a 100% discount rate, zero growth, one share. -/
def sensWitnessResult : DCFCalculation :=
  { discountedFcfs := [512, 256, 128, 64, 32, 16, 8, 4, 2, 1]
    totalDiscountedFcf := 1023
    perpetuityValue := 1024
    discountedPerpetuityValue := 1
    totalEquityValue := 1024
    intrinsicValuePerShare := 1024 }

/-- Witness for C3: a one-by-one matrix cell, the success branch at
rates 100%/0%, and the failure branch at rates 0%/0%. -/
theorem generateSensitivityAnalysis_spec_witness :
    ((0 : ℕ) < 1
      ∧ ((generateSensitivityAnalysis sensWitnessFcfs 1 [100] [0]).getD 0
            ("", [])).2.getD 0 ("", 0) =
          (percentLabel (([0] : List ℚ).getD 0 0),
            sensitivityCell sensWitnessFcfs 1 (([100] : List ℚ).getD 0 0)
              (([0] : List ℚ).getD 0 0)))
    ∧ (calculateDCFValuation ⟨sensWitnessFcfs, 100, 0, 1⟩ =
          Except.ok sensWitnessResult
      ∧ sensitivityCell sensWitnessFcfs 1 100 0 =
          (round (sensWitnessResult.intrinsicValuePerShare * 100) : ℚ) / 100)
    ∧ (calculateDCFValuation ⟨sensWitnessFcfs, 0, 0, 1⟩ =
          Except.error DCFError.invalidRateRelationship
      ∧ sensitivityCell sensWitnessFcfs 1 0 0 = 0) := by
  have hok : calculateDCFValuation ⟨sensWitnessFcfs, 100, 0, 1⟩ =
      Except.ok sensWitnessResult := by
    rw [calculateDCFValuation_ok _ (by decide) (by decide) (by decide)]
    congr 1
    norm_num [dcfSpecResult, sensWitnessFcfs, sensWitnessResult,
      List.range_succ, List.replicate]
  have herr : calculateDCFValuation ⟨sensWitnessFcfs, 0, 0, 1⟩ =
      Except.error DCFError.invalidRateRelationship := by
    rw [calculateDCFValuation, if_neg (by simp [sensWitnessFcfs]), if_pos le_rfl]
  exact ⟨⟨by decide,
      ((generateSensitivityAnalysis_spec sensWitnessFcfs 1 [100] [0]).2.1 0
        (by decide)).2.2 0 (by decide)⟩,
    ⟨hok, ((generateSensitivityAnalysis_spec sensWitnessFcfs 1 [100] [0]).2.2
      100 0).1 sensWitnessResult hok⟩,
    ⟨herr, ((generateSensitivityAnalysis_spec sensWitnessFcfs 1 [100] [0]).2.2
      0 0).2 DCFError.invalidRateRelationship herr⟩⟩

lemma calculateDCFValuation_invalid_error (f : List ℚ) (s dR gR : ℚ)
    (h : f.length ≠ 10 ∨ s ≤ 0) :
    ∃ e, calculateDCFValuation ⟨f, dR, gR, s⟩ = Except.error e := by
  rcases h with h | h
  · exact ⟨_, by rw [calculateDCFValuation, if_pos h]⟩
  · rcases eq_or_ne f.length 10 with h10 | h10
    · rcases le_or_lt dR gR with hle | hlt
      · exact ⟨_, by rw [calculateDCFValuation, if_neg (by simp [h10]),
          if_pos hle]⟩
      · exact ⟨_, by rw [calculateDCFValuation, if_neg (by simp [h10]),
          if_neg (not_le.mpr hlt), if_pos h]⟩
    · exact ⟨_, by rw [calculateDCFValuation, if_pos h10]⟩

/-- C10: when the projections do not number 10 or the share count is
non-positive, every calculator call fails, the failure is swallowed per
cell, and `generateSensitivityAnalysis` still returns the fully
populated, correctly keyed matrix with every cell exactly `0`. -/
theorem generateSensitivityAnalysis_invalid_all_zero (f : List ℚ) (s : ℚ)
    (dRs gRs : List ℚ) (h : f.length ≠ 10 ∨ s ≤ 0) :
    (generateSensitivityAnalysis f s dRs gRs).length = dRs.length
    ∧ ∀ i, i < dRs.length →
        ((generateSensitivityAnalysis f s dRs gRs).getD i ("", [])).1 =
            percentLabel (dRs.getD i 0)
          ∧ ((generateSensitivityAnalysis f s dRs gRs).getD i ("", [])).2.length =
              gRs.length
          ∧ ∀ j, j < gRs.length →
              ((generateSensitivityAnalysis f s dRs gRs).getD i
                    ("", [])).2.getD j ("", 0) =
                (percentLabel (gRs.getD j 0), 0) := by
  refine ⟨by simp [generateSensitivityAnalysis], fun i hi => ?_⟩
  rw [generateSensitivityAnalysis_getD f s dRs gRs i hi]
  refine ⟨rfl, by simp, fun j hj => ?_⟩
  rw [getD_map_of_lt _ _ _ _ hj]
  obtain ⟨e, he⟩ := calculateDCFValuation_invalid_error f s
    (dRs.getD i 0) (gRs.getD j 0) h
  simp only [sensitivityCell, he]

/-- Witness for C10: an empty projection list still yields a one-by-one
matrix whose only cell is `(label, 0)`. -/
theorem generateSensitivityAnalysis_invalid_all_zero_witness :
    (([] : List ℚ).length ≠ 10 ∨ (1 : ℚ) ≤ 0)
    ∧ (0 : ℕ) < 1
    ∧ ((generateSensitivityAnalysis [] 1 [10] [3]).getD 0 ("", [])).2.getD 0
          ("", 0) =
        (percentLabel (([3] : List ℚ).getD 0 0), 0) :=
  ⟨Or.inl (by decide), by decide,
    ((generateSensitivityAnalysis_invalid_all_zero [] 1 [10] [3]
      (Or.inl (by decide))).2 0 (by decide)).2.2 0 (by decide)⟩

end Stocks
